import Mathlib

/-!
# Verification of the cdk-gateway melt-swap handler

A shallow embedding of `src/gateway_server.rs` (the `post_melt_request`
handler and the `IntoResponse` instance of `ErrorResponse`), together with
theorems settling the specification claims.

Modelling conventions:

* `Amount` (cdk `Amount`, a `u64`) is modelled as `Nat`; the claims under
  study never exercise `u64` overflow.
* The payment hash is an opaque 32-byte value compared only for equality;
  it is modelled as `Nat`.  Mint URLs, preimages and raw token strings are
  modelled as `String`.
* External collaborators (the bolt11 parser, the cdk token decoder, the
  multi-mint wallet and the upstream payment node) are out of scope for the
  repository and are modelled as an explicit environment `Env` of oracle
  functions, one per capability the handler consumes.
* A Rust `panic!` / `.unwrap()` / `.expect(..)` on an external failure is
  modelled as the distinguished outcome `Outcome.panic`.
* The Nut10 secret of a proof is carried in already-parsed form: the field
  `Proof.secret : Except String SpendingConditions` is the result of the
  external `Nut10Secret` parse (`proof.secret.try_into()`) followed by the
  infallible conversion to `SpendingConditions`.
* The `payment_request` attached to error responses is kept as a structured
  `PaymentRequest` value rather than its cdk serialisation; the `X-Cashu`
  header of a response carries that structure directly (the serialisation
  `to_string` / parse round-trip of cdk is the identity on the fields the
  claims mention).
-/

namespace CdkGateway

/-- Amounts in satoshi (cdk `Amount`, a `u64`), modelled as `Nat`. -/
abbrev Amount := Nat

/-- Canonical mint base URL, compared only for equality. -/
abbrev MintUrl := String

/-- Opaque 32-byte payment hash, compared only for equality. -/
abbrev Hash := Nat

/-- The `Conditions` attached to an HTLC secret; only the `locktime`
field is inspected by the handler. -/
structure HtlcConds where
  locktime : Option Nat
  deriving DecidableEq, Repr

/-- cdk `SpendingConditions`, restricted to the two variants the handler
matches on. -/
inductive SpendingConditions where
  | HTLCConditions (data : Hash) (conditions : Option HtlcConds)
  | P2PKConditions
  deriving DecidableEq, Repr

instance instDecEqExcept {ε α : Type} [DecidableEq ε] [DecidableEq α] :
    DecidableEq (Except ε α) := fun a b =>
  match a, b with
  | .error e₁, .error e₂ =>
    if h : e₁ = e₂ then .isTrue (congrArg Except.error h)
    else .isFalse (fun hh => h (Except.error.inj hh))
  | .ok a₁, .ok a₂ =>
    if h : a₁ = a₂ then .isTrue (congrArg Except.ok h)
    else .isFalse (fun hh => h (Except.ok.inj hh))
  | .error _, .ok _ => .isFalse Except.noConfusion
  | .ok _, .error _ => .isFalse Except.noConfusion

/-- A single ecash proof: its denomination and the parsed form of its
Nut10 secret (`Except.error` models a secret that fails to parse). -/
structure Proof where
  amount : Amount
  secret : Except String SpendingConditions
  deriving DecidableEq, Repr

/-- A decoded cashu token: issuing mint and its proofs. -/
structure Token where
  mint : MintUrl
  proofs : List Proof
  deriving DecidableEq, Repr

/-- `Token::value()`: the sum of the proof amounts. -/
def Token.value (t : Token) : Amount :=
  (t.proofs.map Proof.amount).sum

/-- The request `method` enum (`bolt11` / `bolt12`). -/
inductive PaymentMethod where
  | Bolt11
  | Bolt12
  deriving DecidableEq, Repr

/-- The JSON body of `POST /payment`. -/
structure MeltRequest where
  method : PaymentMethod
  request : String
  amount : Option Amount
  tokens : List String

/-- The success body: the revealed preimage and the minted change tokens
(the source pushes `token.to_string()`; we keep the structured token so
that its value can be stated). -/
structure MeltResponse where
  payment_proof : String
  change : List Token
  deriving DecidableEq, Repr

/-- The nut18 payment request built by `PaymentRequestBuilder`, restricted
to the fields the handler sets. -/
structure PaymentRequest where
  unit : String
  amount : Amount
  mints : List MintUrl
  nut10 : SpendingConditions
  deriving DecidableEq, Repr

/-- The structured error body (`payment_request` is `#[serde(skip)]`;
it is only consulted when the `X-Cashu` header is attached). -/
structure ErrorResponse where
  code : Nat
  message : String
  details : Option String
  payment_request : Option PaymentRequest
  deriving DecidableEq, Repr

/-- What the handler produces: a success body, a structured error, or a
Rust panic (`unwrap` / `expect` on an external failure). -/
inductive Outcome where
  | success (resp : MeltResponse)
  | error (err : ErrorResponse)
  | panic (msg : String)
  deriving DecidableEq, Repr

/-- A parsed bolt11 invoice: its payment hash and the embedded amount in
milli-satoshis, when present. -/
structure Invoice where
  paymentHash : Hash
  amountMilli : Option Nat
  deriving DecidableEq, Repr

/-- The upstream node's reply to `make_payment`. -/
structure PayResp where
  payment_proof : Option String
  total_spent : Amount
  deriving DecidableEq, Repr

/-- The external collaborators consumed by the handler, plus the gateway
state (`mints`, the supported-mint list, and the current unix time). -/
structure Env where
  parseBolt11 : String → Option Invoice
  decodeToken : String → Option Token
  walletExists : MintUrl → Bool
  verifyDleq : MintUrl → Token → Except String Unit
  receiveResult : MintUrl → Token → Except String Unit
  sendChange : MintUrl → Amount → Option Token
  makePayment : Except String PayResp
  now : Nat
  mints : List MintUrl

/-! ## `ErrorResponse::into_response` -/

/-- Boolean substring containment on character lists (Rust
`str::contains`). -/
def charsContain (needle : List Char) : List Char → Bool
  | [] => needle.isPrefixOf []
  | c :: cs => needle.isPrefixOf (c :: cs) || charsContain needle cs

/-- Rust `self.message.contains(pat)`. -/
def strContains (hay pat : String) : Bool :=
  charsContain pat.data hay.data

/-- The HTTP status chosen by `ErrorResponse::into_response`: 402 for a
400-coded error whose message mentions one of the three payment-related
phrases, otherwise the error's own code (`StatusCode::from_u16`, falling
back to 500 outside the valid 100–999 range). -/
def http_status (e : ErrorResponse) : Nat :=
  if e.code == 400 &&
      (strContains e.message "Insufficient funds" ||
       strContains e.message "Missing amount" ||
       strContains e.message "Token verification failed") then
    402
  else if 100 ≤ e.code ∧ e.code ≤ 999 then e.code
  else 500

/-- The wire form of an error: status, serialised body (without
`payment_request`), and the optional `X-Cashu` header. -/
structure HttpResponse where
  status : Nat
  body_code : Nat
  body_message : String
  body_details : Option String
  xCashu : Option PaymentRequest
  deriving DecidableEq, Repr

/-- `ErrorResponse::into_response`: the `X-Cashu` header is attached
exactly when the status is 402 and a payment request is present. -/
def into_response (e : ErrorResponse) : HttpResponse :=
  let status := http_status e
  { status := status
    body_code := e.code
    body_message := e.message
    body_details := e.details
    xCashu := if status = 402 then e.payment_request else none }

/-! ## The `post_melt_request` handler -/

/-- The required amount in satoshi (lines 215–227): the invoice's embedded
milli-satoshi amount divided by 1000 when present, else the body's
`amount`, else the `Missing amount` error.  Note the error is built before
the payment-request hint exists, so it carries no `payment_request`. -/
def required_amount (inv : Invoice) (body : Option Amount) :
    Except ErrorResponse Amount :=
  match inv.amountMilli with
  | some a => .ok (a / 1000)
  | none =>
    match body with
    | some a => .ok a
    | none =>
      .error
        { code := 400
          message := "Missing amount"
          details := some
            "Invoice has no amount specified. Please provide an amount in the request."
          payment_request := none }

/-- The tokens that decode successfully
(`payload.tokens.iter().flat_map(Token::from_str)`); malformed strings are
dropped. -/
def decoded_tokens (env : Env) (payload : MeltRequest) : List Token :=
  payload.tokens.filterMap env.decodeToken

/-- Result of one step of a per-token loop: continue, return an error
response, or panic. -/
inductive StepResult where
  | ok
  | fail (e : ErrorResponse)
  | panicked (msg : String)
  deriving DecidableEq, Repr

/-- The per-proof check (lines 308–359): parse the Nut10 secret, then
accept only `HTLCConditions` whose `data` equals the invoice hash and
whose locktime, if any, is at least `now + 900`; `P2PKConditions` is
rejected outright. -/
def check_proof (hash : Hash) (now : Nat) (pr : PaymentRequest) (p : Proof) :
    Option ErrorResponse :=
  match p.secret with
  | .error err =>
    some
      { code := 400
        message := "Token verification failed"
        details := some ("Secret validation failed: " ++ err)
        payment_request := some pr }
  | .ok (.HTLCConditions data conditions) =>
    if data ≠ hash then
      some
        { code := 400
          message := "Token hash does not match payment hash"
          details := none
          payment_request := some pr }
    else
      match conditions with
      | some conds =>
        match conds.locktime with
        | some locktime =>
          if locktime < now + 900 then
            some
              { code := 400
                message := "Token lock time is not long enough"
                details := none
                payment_request := some pr }
          else none
        | none => none
      | none => none
  | .ok .P2PKConditions =>
    some
      { code := 400
        message := "Token verification failed"
        details := none
        payment_request := some pr }

/-- The first failing proof check in a proof list, if any. -/
def check_proofs (hash : Hash) (now : Nat) (pr : PaymentRequest) :
    List Proof → Option ErrorResponse
  | [] => none
  | p :: ps =>
    match check_proof hash now pr p with
    | some e => some e
    | none => check_proofs hash now pr ps

/-- The per-token validation step (lines 287–360): the wallet lookup
(`.expect("wallet")`, a panic when the mint is unregistered), the DLEQ
verification, then the per-proof checks. -/
def validate_token (env : Env) (hash : Hash) (pr : PaymentRequest)
    (t : Token) : StepResult :=
  if env.walletExists t.mint then
    match env.verifyDleq t.mint t with
    | .error e =>
      .fail
        { code := 400
          message := "Token verification failed"
          details := some ("DLEQ verification error: " ++ e)
          payment_request := some pr }
    | .ok _ =>
      match check_proofs hash env.now pr t.proofs with
      | some e => .fail e
      | none => .ok
  else
    .panicked "wallet"

/-- The validation loop over all decoded tokens, stopping at the first
failure. -/
def validate_tokens (env : Env) (hash : Hash) (pr : PaymentRequest) :
    List Token → StepResult
  | [] => .ok
  | t :: ts =>
    match validate_token env hash pr t with
    | .ok => validate_tokens env hash pr ts
    | .fail e => .fail e
    | .panicked m => .panicked m

/-- The redemption loop (lines 379–412): per token, the wallet lookup
(panic on unknown mint), then the `payment_proof.ok_or(...)` evaluated
while building `ReceiveOptions`, then `receive`. -/
def receive_tokens (env : Env) (resp : PayResp) : List Token → StepResult
  | [] => .ok
  | t :: ts =>
    if env.walletExists t.mint then
      match resp.payment_proof with
      | none =>
        .fail
          { code := 500
            message := "Missing payment proof"
            details := none
            payment_request := none }
      | some _ =>
        match env.receiveResult t.mint t with
        | .error e =>
          .fail
            { code := 500
              message := "Failed to process token receive"
              details := some e
              payment_request := none }
        | .ok _ => receive_tokens env resp ts
    else
      .panicked "wallet"

/-- The change-minting loop (lines 428–444): per entry of `used_mints`,
the wallet lookup (panic on unknown mint), then `prepare_send` / `send`,
both `.unwrap()`ed (panic on failure). -/
def mint_change (env : Env) (amt : Amount) :
    List MintUrl → Except String (List Token)
  | [] => .ok []
  | m :: ms =>
    if env.walletExists m then
      match env.sendChange m amt with
      | none => .error "send"
      | some tok =>
        match mint_change env amt ms with
        | .ok rest => .ok (tok :: rest)
        | .error e => .error e
    else
      .error "wallet"

/-- The handler's outcome together with the number of `make_payment`
calls issued to the upstream node. -/
structure HandlerResult where
  outcome : Outcome
  attempts : Nat
  deriving DecidableEq, Repr

/-- The nut18 payment request built at lines 256–261: unit `sat`, the
required amount, the supported mints, and an HTLC nut10 bound to the
invoice hash. -/
def built_payment_request (env : Env) (amount : Amount) (hash : Hash) :
    PaymentRequest :=
  { unit := "sat"
    amount := amount
    mints := env.mints
    nut10 := .HTLCConditions hash none }

/-- The full `post_melt_request` handler (lines 200–453), straight-line
translation: method dispatch, invoice parse, amount derivation,
payment-request construction, token decoding, funds check, per-token
validation, the single `make_payment` call, redemption, and change
minting.  `used_mints` receives one entry per decoded token, in order
(line 296 pushes inside the per-token loop, with no deduplication). -/
def post_melt_request (env : Env) (payload : MeltRequest) : HandlerResult :=
  match payload.method with
  | .Bolt12 =>
    ⟨.error
      { code := 400
        message := "Payment method not supported"
        details := some "BOLT12 payment method is not supported"
        payment_request := none }, 0⟩
  | .Bolt11 =>
    match env.parseBolt11 payload.request with
    | none =>
      ⟨.error
        { code := 400
          message := "Invalid BOLT11 invoice"
          details := none
          payment_request := none }, 0⟩
    | some bolt11 =>
      match required_amount bolt11 payload.amount with
      | .error e => ⟨.error e, 0⟩
      | .ok amount_to_pay_sat =>
        let hash := bolt11.paymentHash
        let payment_request := built_payment_request env amount_to_pay_sat hash
        let tokens := decoded_tokens env payload
        let total_amount := (tokens.map Token.value).sum
        if total_amount < amount_to_pay_sat then
          ⟨.error
            { code := 402
              message := "Insufficient funds"
              details := some ("Required: " ++ toString amount_to_pay_sat ++
                ", provided: " ++ toString total_amount)
              payment_request := some payment_request }, 0⟩
        else
          match validate_tokens env hash payment_request tokens with
          | .fail e => ⟨.error e, 0⟩
          | .panicked m => ⟨.panic m, 0⟩
          | .ok =>
            match env.makePayment with
            | .error e =>
              ⟨.error
                { code := 500
                  message := "Payment failed"
                  details := some e
                  payment_request := none }, 1⟩
            | .ok payment_response =>
              match receive_tokens env payment_response tokens with
              | .fail e => ⟨.error e, 1⟩
              | .panicked m => ⟨.panic m, 1⟩
              | .ok =>
                match payment_response.payment_proof with
                | none =>
                  ⟨.error
                    { code := 500
                      message := "Missing payment proof in response"
                      details := none
                      payment_request := none }, 1⟩
                | some proof =>
                  let change_amount :=
                    total_amount - payment_response.total_spent
                  let used_mints := tokens.map Token.mint
                  match mint_change env change_amount used_mints with
                  | .error m => ⟨.panic m, 1⟩
                  | .ok change =>
                    ⟨.success { payment_proof := proof, change := change }, 1⟩

/-! ## Predicates describing the checks -/

/-- The locktime floor of lines 333–344: when a locktime is present it
must be at least `now + 900`. -/
def locktime_ok (now : Nat) : Option HtlcConds → Prop
  | none => True
  | some conds =>
    match conds.locktime with
    | none => True
    | some locktime => now + 900 ≤ locktime

/-- A proof passes the per-proof checks: its secret parsed as
`HTLCConditions` bound to the invoice hash, with an acceptable
locktime. -/
def proof_ok (hash : Hash) (now : Nat) (p : Proof) : Prop :=
  ∃ c, p.secret = .ok (.HTLCConditions hash c) ∧ locktime_ok now c

/-- A token passes the whole per-token validation step: registered
wallet, DLEQ accepted, and every proof passes the per-proof checks. -/
def token_accepted (env : Env) (hash : Hash) (t : Token) : Prop :=
  env.walletExists t.mint = true ∧
  env.verifyDleq t.mint t = .ok () ∧
  ∀ p ∈ t.proofs, proof_ok hash env.now p

/-! ## Concrete instances used by witnesses and counterexamples -/

/-- An HTLC secret locked to `h`, with no extra conditions. -/
def htlc_secret (h : Hash) : Except String SpendingConditions :=
  .ok (.HTLCConditions h none)

/-- A token at mint `m` whose proofs have values `vs`, all locked to
`h`. -/
def simple_token (m : MintUrl) (vs : List Amount) (h : Hash) : Token :=
  ⟨m, vs.map (fun v => ⟨v, htlc_secret h⟩)⟩

/-- A bolt11 melt request for invoice string `inv`, with no body amount,
carrying the token strings `ts`. -/
def melt_req (ts : List String) : MeltRequest :=
  ⟨.Bolt11, "inv", none, ts⟩

/-- A cooperative environment: the invoice parses to hash 7 with an
embedded 1000000 milli-sat; `decode` maps token strings to tokens;
wallets exist exactly at mint `M1`; DLEQ and `receive` succeed; change
sends mint an ideal token of the requested value; the node pays,
revealing preimage `P1` and spending 1000 sat. -/
def base_env (decode : String → Option Token) : Env :=
  { parseBolt11 := fun _ => some ⟨7, some 1000000⟩
    decodeToken := decode
    walletExists := fun m => m == "M1"
    verifyDleq := fun _ _ => .ok ()
    receiveResult := fun _ _ => .ok ()
    sendChange := fun m a => some ⟨m, [⟨a, htlc_secret 7⟩]⟩
    makePayment := .ok ⟨some "P1", 1000⟩
    now := 100
    mints := ["M1"] }

/-- Scenario S1: a single token of value 600 + 400 = 1000 at `M1`. -/
def env_s1 : Env :=
  base_env fun s => if s = "t" then some (simple_token "M1" [600, 400] 7) else none

/-- Scenario S2: two tokens at `M1`, of values 700 and 500. -/
def env_s2 : Env :=
  base_env fun s =>
    if s = "a" then some (simple_token "M1" [700] 7)
    else if s = "b" then some (simple_token "M1" [500] 7)
    else none

/-- Scenario S3: a single token of value 800, short of the 1000 due. -/
def env_800 : Env :=
  base_env fun s => if s = "x" then some (simple_token "M1" [800] 7) else none

/-- Scenario S4: a token of value 1000 whose proof is locked to hash 9,
not the invoice hash 7. -/
def env_mis : Env :=
  base_env fun s => if s = "x" then some (simple_token "M1" [1000] 9) else none

/-- Scenario S6: the invoice embeds no amount. -/
def env_noamt : Env :=
  { base_env (fun s => if s = "t" then some (simple_token "M1" [600, 400] 7) else none) with
    parseBolt11 := fun _ => some ⟨7, none⟩ }

/-- A token of value 800 issued by the unregistered mint `M2`
(insufficient for the 1000 due). -/
def env_unk : Env :=
  base_env fun s => if s = "x" then some (simple_token "M2" [800] 7) else none

/-- A token of value 1000 issued by the unregistered mint `M2`
(sufficient funds). -/
def env_unk2 : Env :=
  base_env fun s => if s = "x" then some (simple_token "M2" [1000] 7) else none

/-- The `Insufficient funds` error of lines 274–282. -/
def insufficient_funds_err (env : Env) (r provided : Amount) (hash : Hash) :
    ErrorResponse :=
  { code := 402
    message := "Insufficient funds"
    details := some ("Required: " ++ toString r ++ ", provided: " ++
      toString provided)
    payment_request := some (built_payment_request env r hash) }

/-- The `Missing amount` error of lines 218–226, produced before the
payment-request hint exists. -/
def missing_amount_err : ErrorResponse :=
  { code := 400
    message := "Missing amount"
    details := some
      "Invoice has no amount specified. Please provide an amount in the request."
    payment_request := none }

/-- The hash-mismatch error of lines 325–330. -/
def hash_mismatch_err (pr : PaymentRequest) : ErrorResponse :=
  { code := 400
    message := "Token hash does not match payment hash"
    details := none
    payment_request := some pr }

/-- An environment with no decodable tokens, used for per-token lemma
instances. -/
def env_plain : Env :=
  base_env fun _ => none

/-- The payment-request hint for 1000 sat against hash 7 in
`env_plain`. -/
def pr_plain : PaymentRequest :=
  built_payment_request env_plain 1000 7

/-- The response the handler produces in scenario S1: the preimage and
one zero-valued change token. -/
def resp_s1 : MeltResponse :=
  ⟨"P1", [⟨"M1", [⟨0, htlc_secret 7⟩]⟩]⟩

/-- The response the handler produces in scenario S2: the preimage and
two change tokens of 200 sat each. -/
def resp_s2 : MeltResponse :=
  ⟨"P1", [⟨"M1", [⟨200, htlc_secret 7⟩]⟩, ⟨"M1", [⟨200, htlc_secret 7⟩]⟩]⟩

/-- A single proof carrying a P2PK secret. -/
def p2pk_proof : Proof :=
  ⟨5, .ok .P2PKConditions⟩

/-- A token at `M1` whose only proof is P2PK-locked. -/
def p2pk_token : Token :=
  ⟨"M1", [p2pk_proof]⟩

/-! ## Structural lemmas about the checks -/

lemma check_proof_eq_none_iff (hash : Hash) (now : Nat) (pr : PaymentRequest)
    (p : Proof) : check_proof hash now pr p = none ↔ proof_ok hash now p := by
  unfold check_proof proof_ok
  rcases hsec : p.secret with err | sc
  · simp
  · cases sc with
    | HTLCConditions data conditions =>
      dsimp only
      by_cases hd : data = hash
      · subst hd
        rw [if_neg (fun hc => hc rfl)]
        cases conditions with
        | none => simp [locktime_ok]
        | some conds =>
          cases hlt : conds.locktime with
          | none => simp [locktime_ok, hlt]
          | some locktime =>
            by_cases hcmp : locktime < now + 900
            · simp only [hlt, if_pos hcmp, locktime_ok]
              constructor
              · intro hh; exact absurd hh (by simp)
              · rintro ⟨c, hc, hok⟩
                rcases hc with ⟨⟩
                simp only [locktime_ok, hlt] at hok
                omega
            · simp only [hlt, if_neg hcmp, locktime_ok]
              constructor
              · intro _
                exact ⟨some conds, rfl, by simp only [locktime_ok, hlt]; omega⟩
              · intro _; trivial
      · rw [if_pos hd]
        constructor
        · intro hh; exact absurd hh (by simp)
        · rintro ⟨c, hc, -⟩
          exact absurd (SpendingConditions.HTLCConditions.inj
            (Except.ok.inj hc)).1 hd
    | P2PKConditions => dsimp only; simp

lemma check_proofs_eq_none_iff (hash : Hash) (now : Nat) (pr : PaymentRequest) :
    ∀ ps, check_proofs hash now pr ps = none ↔ ∀ p ∈ ps, proof_ok hash now p
  | [] => by simp [check_proofs]
  | p :: ps => by
    simp only [check_proofs]
    cases h : check_proof hash now pr p with
    | some e =>
      constructor
      · intro hh; exact absurd hh (by simp)
      · intro hall
        have hn := (check_proof_eq_none_iff hash now pr p).2
          (hall p (List.mem_cons_self p ps))
        rw [hn] at h
        exact Option.noConfusion h
    | none =>
      have hp := (check_proof_eq_none_iff hash now pr p).1 h
      rw [check_proofs_eq_none_iff hash now pr ps]
      constructor
      · intro hall q hq
        rcases List.mem_cons.1 hq with hq | hq
        · rw [hq]; exact hp
        · exact hall q hq
      · intro hall q hq
        exact hall q (List.mem_cons_of_mem p hq)

lemma validate_token_ok_iff (env : Env) (hash : Hash) (pr : PaymentRequest)
    (t : Token) :
    validate_token env hash pr t = .ok ↔ token_accepted env hash t := by
  unfold validate_token token_accepted
  cases hw : env.walletExists t.mint with
  | false => simp [hw]
  | true =>
    simp only [hw, if_true, true_and]
    cases hd : env.verifyDleq t.mint t with
    | error e =>
      constructor
      · intro hh; exact absurd hh (by simp)
      · intro hh; exact absurd hh (by simp)
    | ok u =>
      cases u
      simp only [true_and]
      cases hcp : check_proofs hash env.now pr t.proofs with
      | some e =>
        constructor
        · intro hh; exact absurd hh (by simp)
        · intro hall
          have := (check_proofs_eq_none_iff hash env.now pr t.proofs).2 hall
          rw [this] at hcp
          exact Option.noConfusion hcp
      | none =>
        constructor
        · intro _
          exact (check_proofs_eq_none_iff hash env.now pr t.proofs).1 hcp
        · intro _; rfl

lemma validate_tokens_ok_iff (env : Env) (hash : Hash) (pr : PaymentRequest) :
    ∀ ts, validate_tokens env hash pr ts = .ok ↔
      ∀ t ∈ ts, token_accepted env hash t
  | [] => by simp [validate_tokens]
  | t :: ts => by
    simp only [validate_tokens]
    cases hv : validate_token env hash pr t with
    | ok =>
      have ha := (validate_token_ok_iff env hash pr t).1 hv
      rw [validate_tokens_ok_iff env hash pr ts]
      simp [ha]
    | fail e =>
      have hna : ¬ token_accepted env hash t := by
        intro ha
        have := (validate_token_ok_iff env hash pr t).2 ha
        rw [this] at hv
        exact StepResult.noConfusion hv
      constructor
      · intro hh; exact absurd hh (by simp)
      · intro hall; exact absurd (hall t (List.mem_cons_self t ts)) hna
    | panicked m =>
      have hna : ¬ token_accepted env hash t := by
        intro ha
        have := (validate_token_ok_iff env hash pr t).2 ha
        rw [this] at hv
        exact StepResult.noConfusion hv
      constructor
      · intro hh; exact absurd hh (by simp)
      · intro hall; exact absurd (hall t (List.mem_cons_self t ts)) hna

lemma validate_tokens_append (env : Env) (hash : Hash) (pr : PaymentRequest) :
    ∀ pre rest, (∀ t ∈ pre, token_accepted env hash t) →
      validate_tokens env hash pr (pre ++ rest) =
        validate_tokens env hash pr rest
  | [], _, _ => rfl
  | t :: pre, rest, hall => by
    simp only [List.cons_append, validate_tokens]
    have hv := (validate_token_ok_iff env hash pr t).2
      (hall t (List.mem_cons_self t pre))
    rw [hv]
    exact validate_tokens_append env hash pr pre rest
      (fun t' ht' => hall t' (List.mem_cons_of_mem t ht'))

lemma validate_tokens_unknown_mint (env : Env) (hash : Hash)
    (pr : PaymentRequest) (t : Token) (rest : List Token)
    (hw : env.walletExists t.mint = false) :
    validate_tokens env hash pr (t :: rest) = .panicked "wallet" := by
  simp only [validate_tokens, validate_token, hw]
  rfl

lemma mint_change_ok_length (env : Env) (a : Amount) :
    ∀ ms ch, mint_change env a ms = .ok ch → ch.length = ms.length
  | [], ch, h => by
    simp only [mint_change] at h
    cases h
    rfl
  | m :: ms, ch, h => by
    simp only [mint_change] at h
    cases hw : env.walletExists m with
    | false => rw [hw] at h; simp at h
    | true =>
      rw [hw] at h
      simp only [if_true] at h
      cases hs : env.sendChange m a with
      | none => rw [hs] at h; simp at h
      | some tok =>
        rw [hs] at h
        cases hmc : mint_change env a ms with
        | error e => rw [hmc] at h; simp at h
        | ok rest =>
          rw [hmc] at h
          cases h
          simp [mint_change_ok_length env a ms rest hmc]

lemma mint_change_ok_sum (env : Env) (a : Amount)
    (hideal : ∀ m t, env.sendChange m a = some t → t.value = a) :
    ∀ ms ch, mint_change env a ms = .ok ch →
      (ch.map Token.value).sum = ms.length * a
  | [], ch, h => by
    simp only [mint_change] at h
    cases h
    simp
  | m :: ms, ch, h => by
    simp only [mint_change] at h
    cases hw : env.walletExists m with
    | false => rw [hw] at h; simp at h
    | true =>
      rw [hw] at h
      simp only [if_true] at h
      cases hs : env.sendChange m a with
      | none => rw [hs] at h; simp at h
      | some tok =>
        rw [hs] at h
        cases hmc : mint_change env a ms with
        | error e => rw [hmc] at h; simp at h
        | ok rest =>
          rw [hmc] at h
          cases h
          have hrest := mint_change_ok_sum env a hideal ms rest hmc
          simp only [List.map_cons, List.sum_cons, hrest, hideal m tok hs,
            List.length_cons]
          ring

/-! ## Handler-level inversion lemmas -/

lemma attempts_le_one (env : Env) (payload : MeltRequest) :
    (post_melt_request env payload).attempts ≤ 1 := by
  unfold post_melt_request
  cases payload.method with
  | Bolt12 => simp
  | Bolt11 =>
    dsimp only
    cases env.parseBolt11 payload.request with
    | none => simp
    | some inv =>
      dsimp only
      cases required_amount inv payload.amount with
      | error e => simp
      | ok r =>
        dsimp only
        by_cases hlt : ((decoded_tokens env payload).map Token.value).sum < r
        · rw [if_pos hlt]; simp
        · rw [if_neg hlt]
          cases validate_tokens env inv.paymentHash
              (built_payment_request env r inv.paymentHash)
              (decoded_tokens env payload) with
          | fail e => simp
          | panicked m => simp
          | ok =>
            dsimp only
            cases env.makePayment with
            | error e => simp
            | ok presp =>
              dsimp only
              cases receive_tokens env presp (decoded_tokens env payload) with
              | fail e => simp
              | panicked m => simp
              | ok =>
                dsimp only
                cases presp.payment_proof with
                | none => simp
                | some pf =>
                  dsimp only
                  cases mint_change env
                      (((decoded_tokens env payload).map Token.value).sum -
                        presp.total_spent)
                      ((decoded_tokens env payload).map Token.mint) with
                  | error m => simp
                  | ok change => simp

lemma payment_attempted (env : Env) (payload : MeltRequest)
    (h : (post_melt_request env payload).attempts = 1) :
    ∃ inv r, payload.method = .Bolt11 ∧
      env.parseBolt11 payload.request = some inv ∧
      required_amount inv payload.amount = .ok r ∧
      r ≤ ((decoded_tokens env payload).map Token.value).sum ∧
      validate_tokens env inv.paymentHash
        (built_payment_request env r inv.paymentHash)
        (decoded_tokens env payload) = .ok := by
  unfold post_melt_request at h
  cases hm : payload.method with
  | Bolt12 => rw [hm] at h; simp at h
  | Bolt11 =>
    rw [hm] at h
    try dsimp only at h
    cases hp : env.parseBolt11 payload.request with
    | none => rw [hp] at h; simp at h
    | some inv =>
      rw [hp] at h
      try dsimp only at h
      cases hr : required_amount inv payload.amount with
      | error e => rw [hr] at h; simp at h
      | ok r =>
        rw [hr] at h
        try dsimp only at h
        by_cases hlt : ((decoded_tokens env payload).map Token.value).sum < r
        · rw [if_pos hlt] at h; simp at h
        · rw [if_neg hlt] at h
          try dsimp only at h
          cases hv : validate_tokens env inv.paymentHash
              (built_payment_request env r inv.paymentHash)
              (decoded_tokens env payload) with
          | fail e => rw [hv] at h; simp at h
          | panicked m => rw [hv] at h; simp at h
          | ok => exact ⟨inv, r, rfl, rfl, hr, Nat.le_of_not_lt hlt, hv⟩

lemma success_inv (env : Env) (payload : MeltRequest) (resp : MeltResponse)
    (h : (post_melt_request env payload).outcome = .success resp) :
    ∃ inv r presp,
      payload.method = .Bolt11 ∧
      env.parseBolt11 payload.request = some inv ∧
      required_amount inv payload.amount = .ok r ∧
      r ≤ ((decoded_tokens env payload).map Token.value).sum ∧
      validate_tokens env inv.paymentHash
        (built_payment_request env r inv.paymentHash)
        (decoded_tokens env payload) = .ok ∧
      env.makePayment = .ok presp ∧
      presp.payment_proof = some resp.payment_proof ∧
      mint_change env
        (((decoded_tokens env payload).map Token.value).sum -
          presp.total_spent)
        ((decoded_tokens env payload).map Token.mint) = .ok resp.change := by
  unfold post_melt_request at h
  cases hm : payload.method with
  | Bolt12 => rw [hm] at h; simp at h
  | Bolt11 =>
    rw [hm] at h
    try dsimp only at h
    cases hp : env.parseBolt11 payload.request with
    | none => rw [hp] at h; simp at h
    | some inv =>
      rw [hp] at h
      try dsimp only at h
      cases hr : required_amount inv payload.amount with
      | error e => rw [hr] at h; simp at h
      | ok r =>
        rw [hr] at h
        try dsimp only at h
        by_cases hlt : ((decoded_tokens env payload).map Token.value).sum < r
        · rw [if_pos hlt] at h; simp at h
        · rw [if_neg hlt] at h
          try dsimp only at h
          cases hv : validate_tokens env inv.paymentHash
              (built_payment_request env r inv.paymentHash)
              (decoded_tokens env payload) with
          | fail e => rw [hv] at h; simp at h
          | panicked m => rw [hv] at h; simp at h
          | ok =>
            rw [hv] at h
            try dsimp only at h
            cases hmp : env.makePayment with
            | error e => rw [hmp] at h; simp at h
            | ok presp =>
              rw [hmp] at h
              try dsimp only at h
              cases hrecv : receive_tokens env presp
                  (decoded_tokens env payload) with
              | fail e => rw [hrecv] at h; simp at h
              | panicked m => rw [hrecv] at h; simp at h
              | ok =>
                rw [hrecv] at h
                try dsimp only at h
                cases hpp : presp.payment_proof with
                | none => rw [hpp] at h; simp at h
                | some pf =>
                  rw [hpp] at h
                  try dsimp only at h
                  cases hmc : mint_change env
                      (((decoded_tokens env payload).map Token.value).sum -
                        presp.total_spent)
                      ((decoded_tokens env payload).map Token.mint) with
                  | error m => rw [hmc] at h; simp at h
                  | ok change =>
                    rw [hmc] at h
                    try dsimp only at h
                    have hresp : ({ payment_proof := pf, change := change } :
                        MeltResponse) = resp := by
                      exact Outcome.success.inj h
                    refine ⟨inv, r, presp, rfl, rfl, hr, Nat.le_of_not_lt hlt,
                      hv, rfl, ?_, ?_⟩
                    · rw [← hresp]; exact hpp
                    · rw [← hresp]; exact hmc

lemma base_env_send_ideal (decode : String → Option Token) :
    ∀ m a t, (base_env decode).sendChange m a = some t → t.value = a := by
  intro m a t h
  rw [← Option.some.inj h]
  simp [Token.value]

/-! ## Claims -/

/-- C3: whenever the decoded tokens' total value falls short of the
required amount, the handler answers with the `Insufficient funds` error:
HTTP status 402, body code 402, message `Insufficient funds`, details
`Required: <r>, provided: <p>`, the `X-Cashu` header carrying a payment
request whose amount is the required amount, and no `make_payment`
call. -/
theorem claim_C3 (env : Env) (payload : MeltRequest) (inv : Invoice)
    (r : Amount)
    (hm : payload.method = .Bolt11)
    (hp : env.parseBolt11 payload.request = some inv)
    (hr : required_amount inv payload.amount = .ok r)
    (hlt : ((decoded_tokens env payload).map Token.value).sum < r) :
    post_melt_request env payload =
      ⟨.error (insufficient_funds_err env r
        ((decoded_tokens env payload).map Token.value).sum inv.paymentHash),
        0⟩ ∧
    (into_response (insufficient_funds_err env r
      ((decoded_tokens env payload).map Token.value).sum
      inv.paymentHash)).status = 402 ∧
    (into_response (insufficient_funds_err env r
      ((decoded_tokens env payload).map Token.value).sum
      inv.paymentHash)).xCashu =
        some (built_payment_request env r inv.paymentHash) ∧
    (built_payment_request env r inv.paymentHash).amount = r := by
  refine ⟨?_, rfl, rfl, rfl⟩
  unfold post_melt_request
  rw [hm]
  dsimp only
  rw [hp]
  dsimp only
  rw [hr]
  dsimp only
  rw [if_pos hlt]
  rfl

/-- C3 witness: a 800-sat token against a 1000-sat invoice. -/
theorem claim_C3_witness :
    post_melt_request env_800 (melt_req ["x"]) =
      ⟨.error (insufficient_funds_err env_800 1000 800 7), 0⟩ ∧
    (into_response (insufficient_funds_err env_800 1000 800 7)).status =
      402 ∧
    (into_response (insufficient_funds_err env_800 1000 800 7)).xCashu =
      some (built_payment_request env_800 1000 7) ∧
    (built_payment_request env_800 1000 7).amount = 1000 :=
  claim_C3 env_800 (melt_req ["x"]) ⟨7, some 1000000⟩ 1000 rfl rfl rfl
    (by decide)

/-- C8: an embedded invoice amount of `n` milli-units forces the required
amount to `n / 1000` whatever the body says (the handler's behaviour does
not depend on the body's `amount` field at all then), and with no
embedded amount the body's `amount` is the required amount. -/
theorem claim_C8 :
    (∀ (inv : Invoice) (n : Nat) (b : Option Amount),
      inv.amountMilli = some n → required_amount inv b = .ok (n / 1000)) ∧
    (∀ (inv : Invoice) (a : Amount), inv.amountMilli = none →
      required_amount inv (some a) = .ok a) ∧
    (∀ (env : Env) (payload : MeltRequest) (inv : Invoice) (n : Nat)
      (x : Option Amount),
      payload.method = .Bolt11 →
      env.parseBolt11 payload.request = some inv →
      inv.amountMilli = some n →
      post_melt_request env { payload with amount := x } =
        post_melt_request env payload) := by
  refine ⟨?_, ?_, ?_⟩
  · intro inv n b hmilli
    unfold required_amount
    rw [hmilli]
  · intro inv a hmilli
    unfold required_amount
    rw [hmilli]
  · intro env payload inv n x hm hp hmilli
    have hreq : ∀ b, required_amount inv b = .ok (n / 1000) := by
      intro b
      unfold required_amount
      rw [hmilli]
    unfold post_melt_request
    dsimp only
    rw [hm, hp]
    dsimp only
    simp only [hreq]
    have hdec : ∀ (m : PaymentMethod) (rq : String) (a : Option Amount),
        decoded_tokens env ⟨m, rq, a, payload.tokens⟩ =
          decoded_tokens env payload := fun _ _ _ => rfl
    simp only [hdec]

/-- C8 witness: 1000000 milli-sat gives 1000 sat over any body amount;
an amountless invoice takes the body amount. -/
theorem claim_C8_witness :
    required_amount ⟨7, some 1000000⟩ (some 5) = .ok 1000 ∧
    required_amount ⟨7, none⟩ (some 77) = .ok 77 ∧
    post_melt_request env_800 { melt_req ["x"] with amount := some 5 } =
      post_melt_request env_800 (melt_req ["x"]) :=
  ⟨claim_C8.1 ⟨7, some 1000000⟩ 1000000 (some 5) rfl,
   claim_C8.2.1 ⟨7, none⟩ 77 rfl,
   claim_C8.2.2 env_800 (melt_req ["x"]) ⟨7, some 1000000⟩ 1000000 (some 5)
     rfl rfl rfl⟩

/-- C9: a token string that fails to decode is silently skipped — adding
it anywhere in the token list leaves the handler's outcome (and the
funds check, which ranges over the decoded tokens only) unchanged. -/
theorem claim_C9 (env : Env) (payload : MeltRequest) (s : String)
    (l1 l2 : List String)
    (hs : env.decodeToken s = none)
    (hl : payload.tokens = l1 ++ l2) :
    post_melt_request env { payload with tokens := l1 ++ s :: l2 } =
      post_melt_request env payload ∧
    decoded_tokens env { payload with tokens := l1 ++ s :: l2 } =
      decoded_tokens env payload := by
  have hdec : decoded_tokens env { payload with tokens := l1 ++ s :: l2 } =
      decoded_tokens env payload := by
    unfold decoded_tokens
    dsimp only
    rw [hl]
    simp [List.filterMap_append, hs]
  refine ⟨?_, hdec⟩
  unfold post_melt_request
  dsimp only
  rw [hdec]

/-- C9 witness: an undecodable string ahead of a valid token changes
nothing. -/
theorem claim_C9_witness :
    post_melt_request env_800 (melt_req ["junk", "x"]) =
      post_melt_request env_800 (melt_req ["x"]) ∧
    decoded_tokens env_800 (melt_req ["junk", "x"]) =
      decoded_tokens env_800 (melt_req ["x"]) :=
  claim_C9 env_800 (melt_req ["x"]) "junk" [] ["x"] rfl rfl

/-- C2 counterexample: a funded token locked to hash 9 against an invoice
with hash 7 draws the hash-mismatch error, whose HTTP status is 400 —
not 402 as the claim states. -/
theorem claim_C2_cex :
    decoded_tokens env_mis (melt_req ["x"]) =
      [⟨"M1", [⟨1000, .ok (.HTLCConditions 9 none)⟩]⟩] ∧
    (9 : Hash) ≠ 7 ∧
    post_melt_request env_mis (melt_req ["x"]) =
      ⟨.error (hash_mismatch_err (built_payment_request env_mis 1000 7)),
        0⟩ ∧
    (into_response
      (hash_mismatch_err (built_payment_request env_mis 1000 7))).status =
      400 ∧
    (400 : Nat) ≠ 402 :=
  ⟨rfl, by decide, rfl, rfl, by decide⟩

/-- C2 (amended): a proof whose HTLC data differs from the invoice's
payment hash guarantees the upstream payment is never attempted and the
request never succeeds; the hash-mismatch error itself maps to HTTP
status 400, not 402. -/
theorem claim_C2 (env : Env) (payload : MeltRequest) (inv : Invoice)
    (t : Token) (p : Proof) (d : Hash) (c : Option HtlcConds)
    (hp : env.parseBolt11 payload.request = some inv)
    (ht : t ∈ decoded_tokens env payload)
    (hpf : p ∈ t.proofs)
    (hsec : p.secret = .ok (.HTLCConditions d c))
    (hd : d ≠ inv.paymentHash) :
    (post_melt_request env payload).attempts = 0 ∧
    (∀ resp, (post_melt_request env payload).outcome ≠ .success resp) ∧
    (∀ pr, (into_response (hash_mismatch_err pr)).status = 400) := by
  have hnacc : ¬ token_accepted env inv.paymentHash t := by
    rintro ⟨-, -, hall⟩
    rcases hall p hpf with ⟨c', hc', -⟩
    rw [hsec] at hc'
    exact hd (SpendingConditions.HTLCConditions.inj (Except.ok.inj hc')).1
  refine ⟨?_, ?_, fun _ => rfl⟩
  · by_contra hne
    have h1 : (post_melt_request env payload).attempts = 1 := by
      have := attempts_le_one env payload
      omega
    rcases payment_attempted env payload h1 with ⟨inv', r, -, hp', -, -, hv'⟩
    rw [hp] at hp'
    have hinv := Option.some.inj hp'
    subst hinv
    exact hnacc
      ((validate_tokens_ok_iff env inv.paymentHash _ _).1 hv' t ht)
  · intro resp hsucc
    rcases success_inv env payload resp hsucc with
      ⟨inv', r, presp, -, hp', -, -, hv', -, -, -⟩
    rw [hp] at hp'
    have hinv := Option.some.inj hp'
    subst hinv
    exact hnacc
      ((validate_tokens_ok_iff env inv.paymentHash _ _).1 hv' t ht)

/-- C2 witness: the hash-9 token of the counterexample environment. -/
theorem claim_C2_witness :
    (post_melt_request env_mis (melt_req ["x"])).attempts = 0 ∧
    (∀ resp,
      (post_melt_request env_mis (melt_req ["x"])).outcome ≠
        .success resp) ∧
    (∀ pr, (into_response (hash_mismatch_err pr)).status = 400) :=
  claim_C2 env_mis (melt_req ["x"]) ⟨7, some 1000000⟩
    ⟨"M1", [⟨1000, .ok (.HTLCConditions 9 none)⟩]⟩
    ⟨1000, .ok (.HTLCConditions 9 none)⟩ 9 none rfl (by decide) (by decide)
    rfl (by decide)

/-- C4 counterexample: an amountless invoice and an amountless body
produce the `Missing amount` error with HTTP status 402 but with *no*
`X-Cashu` header: the error is built before the payment-request hint
exists. -/
theorem claim_C4_cex :
    post_melt_request env_noamt (melt_req ["t"]) =
      ⟨.error missing_amount_err, 0⟩ ∧
    (into_response missing_amount_err).status = 402 ∧
    (into_response missing_amount_err).xCashu = none :=
  ⟨rfl, rfl, rfl⟩

/-- C4 (amended): with no embedded and no body amount the handler
answers 402 `Missing amount`, with no `X-Cashu` header attached (the
error carries no payment request). -/
theorem claim_C4 (env : Env) (payload : MeltRequest) (inv : Invoice)
    (hm : payload.method = .Bolt11)
    (hp : env.parseBolt11 payload.request = some inv)
    (hmilli : inv.amountMilli = none)
    (hb : payload.amount = none) :
    post_melt_request env payload = ⟨.error missing_amount_err, 0⟩ ∧
    (into_response missing_amount_err).status = 402 ∧
    (into_response missing_amount_err).xCashu = none := by
  refine ⟨?_, rfl, rfl⟩
  have hr : required_amount inv payload.amount = .error missing_amount_err := by
    unfold required_amount missing_amount_err
    rw [hmilli, hb]
  unfold post_melt_request
  rw [hm]
  dsimp only
  rw [hp]
  dsimp only
  rw [hr]

/-- C4 witness: the amountless-invoice environment. -/
theorem claim_C4_witness :
    post_melt_request env_noamt (melt_req ["t"]) =
      ⟨.error missing_amount_err, 0⟩ ∧
    (into_response missing_amount_err).status = 402 ∧
    (into_response missing_amount_err).xCashu = none :=
  claim_C4 env_noamt (melt_req ["t"]) ⟨7, none⟩ rfl rfl rfl rfl

/-- C5: a token passes the per-token validation only if every proof's
secret parses as `HTLCConditions` bound to the invoice hash with an
acceptable locktime (at least `now + 900` when present); a P2PK-variant
proof is rejected with the `Token verification failed` error. -/
theorem claim_C5 (env : Env) (hash : Hash) (pr : PaymentRequest)
    (t : Token) :
    (validate_token env hash pr t = .ok →
      ∀ p ∈ t.proofs, proof_ok hash env.now p) ∧
    (∀ p ∈ t.proofs, p.secret = .ok .P2PKConditions →
      validate_token env hash pr t ≠ .ok ∧
      check_proof hash env.now pr p =
        some ⟨400, "Token verification failed", none, some pr⟩) := by
  constructor
  · intro hv p hp
    exact ((validate_token_ok_iff env hash pr t).1 hv).2.2 p hp
  · intro p hp hsec
    constructor
    · intro hv
      rcases ((validate_token_ok_iff env hash pr t).1 hv).2.2 p hp with
        ⟨c, hc, -⟩
      rw [hsec] at hc
      exact SpendingConditions.noConfusion (Except.ok.inj hc)
    · unfold check_proof
      rw [hsec]

/-- C5 witness: a P2PK-locked token is rejected. -/
theorem claim_C5_witness :
    validate_token env_plain 7 pr_plain p2pk_token ≠ .ok ∧
    check_proof 7 env_plain.now pr_plain p2pk_proof =
      some ⟨400, "Token verification failed", none, some pr_plain⟩ :=
  (claim_C5 env_plain 7 pr_plain p2pk_token).2 p2pk_proof (by decide) rfl

/-- C6: the upstream `make_payment` is called at most once per request,
and only when the decoded tokens cover the required amount and every
decoded token passed the registered-wallet, DLEQ, hash-binding and
locktime checks. -/
theorem claim_C6 (env : Env) (payload : MeltRequest) :
    (post_melt_request env payload).attempts ≤ 1 ∧
    ((post_melt_request env payload).attempts = 1 →
      ∃ inv r, payload.method = .Bolt11 ∧
        env.parseBolt11 payload.request = some inv ∧
        required_amount inv payload.amount = .ok r ∧
        r ≤ ((decoded_tokens env payload).map Token.value).sum ∧
        ∀ t ∈ decoded_tokens env payload,
          token_accepted env inv.paymentHash t) := by
  refine ⟨attempts_le_one env payload, fun h => ?_⟩
  rcases payment_attempted env payload h with ⟨inv, r, hm, hp, hr, hle, hv⟩
  exact ⟨inv, r, hm, hp, hr, hle,
    (validate_tokens_ok_iff env inv.paymentHash _ _).1 hv⟩

/-- C6 witness: the happy-path S1 environment issues exactly one
payment, with funds covered and the token accepted. -/
theorem claim_C6_witness :
    (post_melt_request env_s1 (melt_req ["t"])).attempts ≤ 1 ∧
    (∃ inv r, (melt_req ["t"]).method = .Bolt11 ∧
      env_s1.parseBolt11 (melt_req ["t"]).request = some inv ∧
      required_amount inv (melt_req ["t"]).amount = .ok r ∧
      r ≤ ((decoded_tokens env_s1 (melt_req ["t"])).map Token.value).sum ∧
      ∀ t ∈ decoded_tokens env_s1 (melt_req ["t"]),
        token_accepted env_s1 inv.paymentHash t) :=
  ⟨(claim_C6 env_s1 (melt_req ["t"])).1,
   (claim_C6 env_s1 (melt_req ["t"])).2 rfl⟩

/-- C1 counterexample: two 700- and 500-sat tokens from the same mint
against a 1000-sat invoice with `total_spent = 1000`.  The change list
holds two tokens of 200 sat each — 400 in total, not the 200 the claim
requires — and two change tokens are minted though only one distinct
mint was used. -/
theorem claim_C1_cex :
    (post_melt_request env_s2 (melt_req ["a", "b"])).outcome =
      .success resp_s2 ∧
    (resp_s2.change.map Token.value).sum = 400 ∧
    ((decoded_tokens env_s2 (melt_req ["a", "b"])).map Token.value).sum -
      1000 = 200 ∧
    (400 : Nat) ≠ 200 ∧
    resp_s2.change.length = 2 ∧
    ((decoded_tokens env_s2 (melt_req ["a", "b"])).map Token.mint).dedup =
      ["M1"] :=
  ⟨rfl, rfl, rfl, by decide, rfl, by decide⟩

/-- C1 (amended): on success the handler mints one change token per
decoded token (`used_mints` has one entry per token, undeduplicated),
each of value `total − total_spent` clamped at zero; so the change total
is that amount multiplied by the number of decoded tokens, not the
amount itself. -/
theorem claim_C1 (env : Env) (payload : MeltRequest) (resp : MeltResponse)
    (presp : PayResp)
    (hmp : env.makePayment = .ok presp)
    (hideal : ∀ m t, env.sendChange m
        (((decoded_tokens env payload).map Token.value).sum -
          presp.total_spent) = some t →
      t.value = ((decoded_tokens env payload).map Token.value).sum -
        presp.total_spent)
    (h : (post_melt_request env payload).outcome = .success resp) :
    resp.change.length = (decoded_tokens env payload).length ∧
    (resp.change.map Token.value).sum =
      (decoded_tokens env payload).length *
        (((decoded_tokens env payload).map Token.value).sum -
          presp.total_spent) := by
  rcases success_inv env payload resp h with
    ⟨inv, r, presp', -, -, -, -, -, hmp', -, hmc⟩
  rw [hmp] at hmp'
  have hpe := Except.ok.inj hmp'
  subst hpe
  constructor
  · rw [mint_change_ok_length env _ _ _ hmc, List.length_map]
  · rw [mint_change_ok_sum env _ hideal _ _ hmc, List.length_map]

/-- C1 witness: the S2 scenario — change totals 2 × 200 = 400. -/
theorem claim_C1_witness :
    resp_s2.change.length =
      (decoded_tokens env_s2 (melt_req ["a", "b"])).length ∧
    (resp_s2.change.map Token.value).sum =
      (decoded_tokens env_s2 (melt_req ["a", "b"])).length *
        (((decoded_tokens env_s2 (melt_req ["a", "b"])).map
          Token.value).sum - 1000) :=
  claim_C1 env_s2 (melt_req ["a", "b"]) resp_s2 ⟨some "P1", 1000⟩ rfl
    (fun m t h => base_env_send_ideal _ m _ t h) rfl

/-- C7 counterexample: in scenario S1 (one 1000-sat token, spent
exactly), the handler succeeds with the preimage but the change list is
*not* empty: it carries one zero-valued token. -/
theorem claim_C7_cex :
    post_melt_request env_s1 (melt_req ["t"]) = ⟨.success resp_s1, 1⟩ ∧
    resp_s1.payment_proof = "P1" ∧
    resp_s1.change ≠ [] :=
  ⟨rfl, rfl, by decide⟩

/-- C7 (amended): when the single decoded token's value equals both the
required amount and the node's `total_spent`, the handler succeeds with
the revealed preimage and a change list holding exactly one token,
minted for amount 0 at the token's mint — not the empty list. -/
theorem claim_C7 (env : Env) (payload : MeltRequest) (inv : Invoice)
    (r : Amount) (t : Token) (preimage : String) (tz : Token)
    (hm : payload.method = .Bolt11)
    (hp : env.parseBolt11 payload.request = some inv)
    (hr : required_amount inv payload.amount = .ok r)
    (hdec : decoded_tokens env payload = [t])
    (hval : t.value = r)
    (hacc : token_accepted env inv.paymentHash t)
    (hmp : env.makePayment = .ok ⟨some preimage, r⟩)
    (hrecv : env.receiveResult t.mint t = .ok ())
    (hsc : env.sendChange t.mint 0 = some tz) :
    post_melt_request env payload = ⟨.success ⟨preimage, [tz]⟩, 1⟩ ∧
    [tz] ≠ ([] : List Token) := by
  refine ⟨?_, by simp⟩
  unfold post_melt_request
  rw [hm]
  dsimp only
  rw [hp]
  dsimp only
  rw [hr]
  dsimp only
  rw [hdec]
  have htot : (([t] : List Token).map Token.value).sum = r := by
    simp [hval]
  rw [htot]
  rw [if_neg (lt_irrefl r)]
  have hv : validate_tokens env inv.paymentHash
      (built_payment_request env r inv.paymentHash) [t] = .ok := by
    rw [validate_tokens_ok_iff]
    intro t' ht'
    rw [List.mem_singleton] at ht'
    subst ht'
    exact hacc
  rw [hv]
  dsimp only
  rw [hmp]
  dsimp only
  have hrt : receive_tokens env ⟨some preimage, r⟩ [t] = .ok := by
    simp only [receive_tokens, hacc.1, if_true, hrecv]
  rw [hrt]
  dsimp only
  have hmc : mint_change env (r - r) ([t].map Token.mint) = .ok [tz] := by
    simp only [List.map_cons, List.map_nil, mint_change, hacc.1, if_true,
      Nat.sub_self, hsc]
  rw [hmc]

/-- C7 witness: the S1 environment. -/
theorem claim_C7_witness :
    post_melt_request env_s1 (melt_req ["t"]) =
      ⟨.success ⟨"P1", [⟨"M1", [⟨0, htlc_secret 7⟩]⟩]⟩, 1⟩ ∧
    [(⟨"M1", [⟨0, htlc_secret 7⟩]⟩ : Token)] ≠ ([] : List Token) :=
  claim_C7 env_s1 (melt_req ["t"]) ⟨7, some 1000000⟩ 1000
    (simple_token "M1" [600, 400] 7) "P1" ⟨"M1", [⟨0, htlc_secret 7⟩]⟩
    rfl rfl rfl rfl rfl
    ⟨rfl, rfl, by
      intro p hp
      simp only [simple_token, List.map_cons, List.map_nil,
        List.mem_cons, List.not_mem_nil, or_false] at hp
      rcases hp with h | h <;> subst h <;> exact ⟨none, rfl, trivial⟩⟩
    rfl rfl rfl

/-- C10 counterexample: a request holding a decoded token from the
unregistered mint `M2` *and* short funds receives the structured 402
`Insufficient funds` response, so the error-response branch is reachable
for inputs containing an unknown-mint token. -/
theorem claim_C10_cex :
    decoded_tokens env_unk (melt_req ["x"]) = [simple_token "M2" [800] 7] ∧
    env_unk.walletExists "M2" = false ∧
    post_melt_request env_unk (melt_req ["x"]) =
      ⟨.error (insufficient_funds_err env_unk 1000 800 7), 0⟩ ∧
    (into_response (insufficient_funds_err env_unk 1000 800 7)).status =
      402 :=
  ⟨rfl, rfl, rfl, rfl⟩

/-- C10 (amended): when the handler actually performs the wallet lookup
for a token whose mint has no registered wallet — funds cover the
required amount and every earlier token was accepted — it panics
(`.expect("wallet")`) instead of returning any error response.  An
earlier check can still return a structured error for such a request, as
the counterexample shows. -/
theorem claim_C10 (env : Env) (payload : MeltRequest) (inv : Invoice)
    (r : Amount) (pre rest : List Token) (t : Token)
    (hm : payload.method = .Bolt11)
    (hp : env.parseBolt11 payload.request = some inv)
    (hr : required_amount inv payload.amount = .ok r)
    (hfunds : ¬ ((decoded_tokens env payload).map Token.value).sum < r)
    (hdec : decoded_tokens env payload = pre ++ t :: rest)
    (hpre : ∀ t' ∈ pre, token_accepted env inv.paymentHash t')
    (hw : env.walletExists t.mint = false) :
    post_melt_request env payload = ⟨.panic "wallet", 0⟩ := by
  unfold post_melt_request
  rw [hm]
  dsimp only
  rw [hp]
  dsimp only
  rw [hr]
  dsimp only
  rw [if_neg hfunds]
  have hv : validate_tokens env inv.paymentHash
      (built_payment_request env r inv.paymentHash)
      (decoded_tokens env payload) = .panicked "wallet" := by
    rw [hdec,
      validate_tokens_append env inv.paymentHash _ pre (t :: rest) hpre,
      validate_tokens_unknown_mint env inv.paymentHash _ t rest hw]
  rw [hv]

/-- C10 witness: a funded token from the unregistered mint `M2` makes
the handler panic. -/
theorem claim_C10_witness :
    post_melt_request env_unk2 (melt_req ["x"]) = ⟨.panic "wallet", 0⟩ :=
  claim_C10 env_unk2 (melt_req ["x"]) ⟨7, some 1000000⟩ 1000 [] []
    (simple_token "M2" [1000] 7) rfl rfl rfl (by decide) rfl
    (fun t' ht' => absurd ht' (List.not_mem_nil t')) rfl

end CdkGateway
